import Mathlib

/-!
# Verification of the dot2 DOT-rendering library

Shallow embedding of the `dot2` Rust crate (files `id.rs`, `label.rs`,
`arrow.rs`, `kind.rs`, `style.rs`, `fill.rs`, `side.rs`, `render.rs`,
and the superseded single-file revision `lib.rs` for `escape_html`).

The engine is generic over a client graph given through the `Labeller`
and `GraphWalk` traits; we embed a graph as a record carrying, for each
node / edge / subgraph handle, the values those trait methods return
(identifier strings, label texts, styles, colors, shapes, arrows), in
the order the traits yield them.  All render functions are translated
statement-by-statement from `render.rs`.
-/

namespace Dot2

/-! ## kind.rs -/

inductive Kind where
  | Digraph
  | Graph
deriving DecidableEq

def Kind.keyword : Kind → String
  | .Digraph => "digraph"
  | .Graph => "graph"

def Kind.edgeop : Kind → String
  | .Digraph => "->"
  | .Graph => "--"

/-! ## style.rs -/

inductive Style where
  | None
  | Solid
  | Dashed
  | Dotted
  | Bold
  | Rounded
  | Diagonals
  | Filled
  | Striped
  | Wedged
deriving DecidableEq

/-- The string `style.rs` renders for each style (its `Display` impl;
the old revision calls it `as_slice`, with the same table). -/
def Style.as_slice : Style → String
  | .None => ""
  | .Solid => "solid"
  | .Dashed => "dashed"
  | .Dotted => "dotted"
  | .Bold => "bold"
  | .Rounded => "rounded"
  | .Diagonals => "diagonals"
  | .Filled => "filled"
  | .Striped => "striped"
  | .Wedged => "wedged"

/-! ## fill.rs / side.rs -/

inductive Fill where
  | Open
  | Filled
deriving DecidableEq

def Fill.as_slice : Fill → String
  | .Open => "o"
  | .Filled => ""

inductive Side where
  | Left
  | Right
  | Both
deriving DecidableEq

def Side.as_slice : Side → String
  | .Left => "l"
  | .Right => "r"
  | .Both => ""

/-! ## arrow.rs -/

inductive Shape where
  | NoArrow
  | Normal (fill : Fill) (side : Side)
  | Box (fill : Fill) (side : Side)
  | Crow (side : Side)
  | Curve (side : Side)
  | ICurve (fill : Fill) (side : Side)
  | Diamond (fill : Fill) (side : Side)
  | Dot (fill : Fill)
  | Inv (fill : Fill) (side : Side)
  | Tee (side : Side)
  | Vee (side : Side)
deriving DecidableEq

/-- `Shape::none()`. -/
def Shape.none : Shape := Shape.NoArrow

/-- `Shape::normal()`. -/
def Shape.normal : Shape := Shape.Normal Fill.Filled Side.Both

/-- `Shape::diamond()`. -/
def Shape.diamond : Shape := Shape.Diamond Fill.Filled Side.Both

/-- `Shape::dot()` — as written in `arrow.rs`, it builds a `Diamond`
shape, not a `Dot` shape. -/
def Shape.dot : Shape := Shape.Diamond Fill.Filled Side.Both

/-- First `match` of `Shape::to_dot_string`: the fill/side modifier
characters pushed before the shape name. -/
def Shape.modifierPart : Shape → String
  | .Box fill side | .ICurve fill side | .Diamond fill side
  | .Inv fill side | .Normal fill side =>
      fill.as_slice ++
        (match side with
         | .Left | .Right => side.as_slice
         | .Both => "")
  | .Dot fill => fill.as_slice
  | .Crow side | .Curve side | .Tee side | .Vee side =>
      (match side with
       | .Left | .Right => side.as_slice
       | .Both => "")
  | .NoArrow => ""

/-- Second `match` of `Shape::to_dot_string`: the shape name. -/
def Shape.namePart : Shape → String
  | .NoArrow => "none"
  | .Normal _ _ => "normal"
  | .Box _ _ => "box"
  | .Crow _ => "crow"
  | .Curve _ => "curve"
  | .ICurve _ _ => "icurve"
  | .Diamond _ _ => "diamond"
  | .Dot _ => "dot"
  | .Inv _ _ => "inv"
  | .Tee _ => "tee"
  | .Vee _ => "vee"

/-- `Shape::to_dot_string`: modifier characters, then the name. -/
def Shape.to_dot_string (s : Shape) : String :=
  s.modifierPart ++ s.namePart

structure Arrow where
  arrows : List Shape
deriving DecidableEq

/-- `Arrow::is_default`: the shape sequence is empty. -/
def Arrow.is_default (a : Arrow) : Bool :=
  a.arrows.isEmpty

/-- `Arrow::default()`. -/
def Arrow.default : Arrow := ⟨[]⟩

/-- `Arrow::none()`. -/
def Arrow.none : Arrow := ⟨[Shape.NoArrow]⟩

/-- `Arrow::from_arrow`. -/
def Arrow.from_arrow (s : Shape) : Arrow := ⟨[s]⟩

def shapeListToDot : List Shape → String
  | [] => ""
  | s :: t => s.to_dot_string ++ shapeListToDot t

/-- `Arrow::to_dot_string`: concatenation of the shapes' renderings. -/
def Arrow.to_dot_string (a : Arrow) : String :=
  shapeListToDot a.arrows

/-! ## label.rs — the `Text` label type and its escaping -/

/-- One lowercase hex digit, as Rust's `\u{...}` escapes print them. -/
def hexDigit (n : Nat) : Char :=
  if n < 10 then Char.ofNat (48 + n) else Char.ofNat (87 + n)

/-- Hex digits of `n`, most significant first, no leading zeros; fuel
keeps the recursion structural (8 digits cover every code point). -/
def toHexAux : Nat → Nat → List Char
  | 0, _ => []
  | _ + 1, 0 => []
  | fuel + 1, n + 1 => toHexAux fuel ((n + 1) / 16) ++ [hexDigit ((n + 1) % 16)]

def toHex (n : Nat) : List Char :=
  if n = 0 then ['0'] else toHexAux 8 n

/-- Rust `char::escape_default` for one character. -/
def escapeDefaultChar (c : Char) : List Char :=
  if c = '\t' then ['\\', 't']
  else if c = '\r' then ['\\', 'r']
  else if c = '\n' then ['\\', 'n']
  else if c = '\\' ∨ c = '\'' ∨ c = '"' then ['\\', c]
  else if 0x20 ≤ c.toNat ∧ c.toNat ≤ 0x7e then [c]
  else ['\\', 'u', '\x7b'] ++ toHex c.toNat ++ ['\x7d']

def escapeDefaultList : List Char → List Char
  | [] => []
  | c :: t => escapeDefaultChar c ++ escapeDefaultList t

/-- Rust `str::escape_default` (`char::escape_default` over each char). -/
def escapeDefaultStr (s : String) : String :=
  ⟨escapeDefaultList s.data⟩

inductive Text where
  | LabelStr (s : String)
  | EscStr (s : String)
  | HtmlStr (s : String)
deriving DecidableEq

/-- `Text::label`. -/
def Text.label (s : String) : Text := Text.LabelStr s

/-- `Text::html`. -/
def Text.html (s : String) : Text := Text.HtmlStr s

/-- `Text::escape_char`: backslash passes through unescaped, everything
else goes through `char::escape_default`. -/
def Text.escape_char (c : Char) : List Char :=
  if c = '\\' then [c] else escapeDefaultChar c

def escapeStrList : List Char → List Char
  | [] => []
  | c :: t => Text.escape_char c ++ escapeStrList t

/-- `Text::escape_str`. -/
def Text.escape_str (s : String) : String :=
  ⟨escapeStrList s.data⟩

/-- The `Display` impl for `Text` (`to_dot_string` in the old
revision): quotes/escapes per variant. -/
def Text.to_dot_string : Text → String
  | .LabelStr s => "\"" ++ escapeDefaultStr s ++ "\""
  | .EscStr s => "\"" ++ Text.escape_str s ++ "\""
  | .HtmlStr s => "<" ++ s ++ ">"

/-- `Text::pre_escaped_content`.  (`s.contains('\\')` on a Rust string
checks whether any char is a backslash.) -/
def Text.pre_escaped_content : Text → String
  | .EscStr s => s
  | .LabelStr s => if s.data.contains '\\' then escapeDefaultStr s else s
  | .HtmlStr s => s

/-- `Text::suffix_line`: pre-escaped self, the literal two-escape pair
`\n\n`, pre-escaped suffix, packed as `EscStr`. -/
def Text.suffix_line (self suffix : Text) : Text :=
  Text.EscStr (self.pre_escaped_content ++ "\\n\\n" ++ suffix.pre_escaped_content)

/-! ## errors.rs / id.rs -/

inductive Error where
  | Io
  | InvalidId
deriving DecidableEq

structure Id where
  name : String
deriving DecidableEq

/-- `Id::new` from `id.rs`: first character must be an ASCII letter or
underscore, every character ASCII alphanumeric or underscore. -/
def Id.new (name : String) : Except Error Id :=
  match name.data.head? with
  | some c =>
    if c.isAlpha || c = '_' then
      if name.data.all (fun x => x.isAlphanum || x = '_') then
        Except.ok ⟨name⟩
      else
        Except.error Error.InvalidId
    else
      Except.error Error.InvalidId
  | none => Except.error Error.InvalidId

/-- The `Display` impl for `Id` writes exactly the stored name. -/
def Id.render (i : Id) : String := i.name

/-! ## render.rs — options, graph data, and the rendering engine

A client graph is embedded as concrete data: for every handle the
record stores exactly what the `Labeller` / `GraphWalk` methods would
return for it (node and edge lists in traversal order, edges already
resolved to source/target identifier strings via `node_id`). -/

/-- `render::Option` (renamed: `Option` is taken in Lean). -/
inductive RenderOption where
  | NoEdgeLabels
  | NoNodeLabels
  | NoEdgeStyles
  | NoEdgeColors
  | NoNodeStyles
  | NoNodeColors
  | NoArrows
  | Fontname (s : String)
  | DarkTheme
deriving DecidableEq

/-- A node handle with everything the `Labeller` returns for it. -/
structure Node where
  id : String
  label : Text
  style : Style
  color : Option Text
  shape : Option Text
deriving DecidableEq

/-- An edge handle: endpoints already resolved to node identifiers. -/
structure Edge where
  source : String
  target : String
  label : Text
  style : Style
  color : Option Text
  start_arrow : Arrow
  end_arrow : Arrow
deriving DecidableEq

/-- A subgraph handle with everything the contracts return for it
(`subgraph_id`, `subgraph_label`, `subgraph_style`, `subgraph_color`,
`subgraph_shape`, `subgraph_nodes` as identifier strings). -/
structure Subgraph where
  id : Option String
  label : Text
  style : Style
  color : Option Text
  shape : Option Text
  nodes : List String
deriving DecidableEq

structure Graph where
  name : String
  kind : Kind
  nodes : List Node
  edges : List Edge
  subgraphs : List Subgraph
deriving DecidableEq

/-- Concatenation of a list of output fragments, in order. -/
def strConcat : List String → String
  | [] => ""
  | s :: t => s ++ strConcat t

/-- Rust `[&str]::join(" ")`. -/
def joinSpace : List String → String
  | [] => ""
  | [s] => s
  | s :: t => s ++ " " ++ joinSpace t

/-- `options.iter().find_map(...)` for the first `Fontname` option. -/
def findFontname : List RenderOption → Option String
  | [] => Option.none
  | RenderOption.Fontname f :: _ => Option.some f
  | _ :: t => findFontname t

/-- The global `graph[..]; node[..]; edge[..];` attribute block built
at the top of `render_nodes`; empty when both attribute lists are. -/
def globalAttrs (options : List RenderOption) : String :=
  let fontAttrs : List String :=
    match findFontname options with
    | Option.some fontname => ["fontname=\"" ++ fontname ++ "\""]
    | Option.none => []
  let graph_attrs : List String :=
    fontAttrs ++
      (if RenderOption.DarkTheme ∈ options then
        ["bgcolor=\"black\"", "fontcolor=\"white\""]
      else [])
  let content_attrs : List String :=
    fontAttrs ++
      (if RenderOption.DarkTheme ∈ options then
        ["color=\"white\"", "fontcolor=\"white\""]
      else [])
  if graph_attrs.isEmpty && content_attrs.isEmpty then ""
  else
    "    graph[" ++ joinSpace graph_attrs ++ "];\n" ++
    "    node[" ++ joinSpace content_attrs ++ "];\n" ++
    "    edge[" ++ joinSpace content_attrs ++ "];\n"

/-- One node line of `render_nodes`: indent, id, then the conditional
label / style / color / shape fragments, then `;` and newline. -/
def renderNode (options : List RenderOption) (n : Node) : String :=
  "    " ++ n.id ++
    (if RenderOption.NoNodeLabels ∈ options then ""
     else "[label=" ++ n.label.to_dot_string ++ "]") ++
    (if RenderOption.NoNodeStyles ∉ options ∧ n.style ≠ Style.None then
      "[style=\"" ++ n.style.as_slice ++ "\"]"
     else "") ++
    (if RenderOption.NoNodeColors ∈ options then ""
     else
      match n.color with
      | Option.some c => "[color=" ++ c.to_dot_string ++ "]"
      | Option.none => "") ++
    (match n.shape with
     | Option.some s => "[shape=" ++ s.to_dot_string ++ "]"
     | Option.none => "") ++
    ";\n"

/-- `render_nodes`: the global attribute block, then one line per
node in order. -/
def renderNodes (options : List RenderOption) (nodes : List Node) : String :=
  globalAttrs options ++ strConcat (nodes.map (renderNode options))

/-- The arrow bracket fragment of an edge line in `render_opts`. -/
def arrowFragment (options : List RenderOption) (start_arrow end_arrow : Arrow) :
    String :=
  if RenderOption.NoArrows ∉ options ∧
      (start_arrow.is_default = false ∨ end_arrow.is_default = false) then
    "[" ++
      (if end_arrow.is_default = false then
        "arrowhead=\"" ++ end_arrow.to_dot_string ++ "\""
       else "") ++
      (if start_arrow.is_default = false then
        " dir=\"both\" arrowtail=\"" ++ start_arrow.to_dot_string ++ "\""
       else "") ++
    "]"
  else ""

/-- One edge line of `render_opts`: indent, `source <edgeop> target`,
conditional label / style / color fragments, the arrow fragment, `;`. -/
def renderEdge (kind : Kind) (options : List RenderOption) (e : Edge) : String :=
  "    " ++ e.source ++ " " ++ kind.edgeop ++ " " ++ e.target ++
    (if RenderOption.NoEdgeLabels ∈ options then ""
     else "[label=" ++ e.label.to_dot_string ++ "]") ++
    (if RenderOption.NoEdgeStyles ∉ options ∧ e.style ≠ Style.None then
      "[style=\"" ++ e.style.as_slice ++ "\"]"
     else "") ++
    (if RenderOption.NoEdgeColors ∈ options then ""
     else
      match e.color with
      | Option.some c => "[color=" ++ c.to_dot_string ++ "]"
      | Option.none => "") ++
    arrowFragment options e.start_arrow e.end_arrow ++
    ";\n"

/-- One subgraph block of `render_subgraphs`, transcribed push by
push: the `text` buffer (header, optional label line, optional style
line, optional `shape="...;` line — `subgraph_color` is never
consulted), flushed with `writeln!` (hence the extra newline), the
member node lines, and the `writeln!(w, "\n}}\n")` footer. -/
def renderSubgraph (options : List RenderOption) (s : Subgraph) : String :=
  let idPart : String :=
    match s.id with
    | Option.some x => x ++ " "
    | Option.none => ""
  let text : String := "subgraph " ++ idPart ++ "\x7b\n"
  let text : String :=
    text ++
      (if RenderOption.NoNodeLabels ∈ options then ""
       else "label=" ++ s.label.to_dot_string ++ ";\n")
  let text : String :=
    text ++
      (if RenderOption.NoNodeStyles ∉ options ∧ s.style ≠ Style.None then
        "style=\"" ++ s.style.as_slice ++ "\";\n"
       else "")
  let text : String :=
    text ++
      (match s.shape with
       | Option.some sh => "shape=\"" ++ sh.to_dot_string ++ ";\n"
       | Option.none => "")
  text ++ "\n" ++
    strConcat (s.nodes.map (fun nid => nid ++ ";\n")) ++
    "\n\x7d\n\n"

/-- `render_subgraphs`: each subgraph block, in order. -/
def renderSubgraphs (options : List RenderOption) (subs : List Subgraph) : String :=
  strConcat (subs.map (renderSubgraph options))

/-- `render_opts`: header line, subgraphs, nodes (with the global
attribute block), edges, footer. -/
def render_opts (g : Graph) (options : List RenderOption) : String :=
  g.kind.keyword ++ " " ++ g.name ++ " \x7b\n" ++
    renderSubgraphs options g.subgraphs ++
    renderNodes options g.nodes ++
    strConcat (g.edges.map (renderEdge g.kind options)) ++
    "\x7d\n"

/-- `render`: `render_opts` with the empty option set. -/
def render (g : Graph) : String :=
  render_opts g []

/-! ## lib.rs (superseded single-file revision) — `escape_html` -/

/-- Rust `str::replace` for a single-character pattern, on char lists. -/
def replaceChar : List Char → Char → List Char → List Char
  | [], _, _ => []
  | x :: xs, c, r => (if x = c then r else [x]) ++ replaceChar xs c r

def ampEntity : List Char := ['&', 'a', 'm', 'p', ';']
def quotEntity : List Char := ['&', 'q', 'u', 'o', 't', ';']
def ltEntity : List Char := ['&', 'l', 't', ';']
def gtEntity : List Char := ['&', 'g', 't', ';']

/-- `escape_html` from `lib.rs`: four sequential whole-string
replacements, ampersands first. -/
def escape_html (s : String) : String :=
  ⟨replaceChar
    (replaceChar
      (replaceChar
        (replaceChar s.data '&' ampEntity)
        '"' quotEntity)
      '<' ltEntity)
    '>' gtEntity⟩

/-! ## Helper definitions and lemmas -/

/-- Substring occurrence test on char lists. -/
def containsSub (needle : List Char) : List Char → Bool
  | [] => needle.isEmpty
  | c :: t => needle.isPrefixOf (c :: t) || containsSub needle t

/-- Whether the option list carries a `Fontname` option. -/
def hasFontname (options : List RenderOption) : Bool :=
  (findFontname options).isSome

/-! ## C2 — subgraph blocks never carry the color attribute -/

/-- A subgraph whose labelling contract supplies both a color and a
shape. -/
def subColorShape : Subgraph :=
  ⟨Option.some "cluster_0", Text.LabelStr "", Style.None,
   Option.some (Text.LabelStr "red"), Option.some (Text.LabelStr "box"), ["N0"]⟩

/-! ## C3 — placement of the global attribute block -/

/-- A bare subgraph handle (all labelling defaults). -/
def subPlain : Subgraph :=
  ⟨Option.none, Text.LabelStr "", Style.None, Option.none, Option.none, []⟩

/-! ## C7 — suppressing all decorations -/

/-- The full suppression option set of the claim. -/
def allSuppress : List RenderOption :=
  [RenderOption.NoEdgeLabels, RenderOption.NoNodeLabels,
   RenderOption.NoEdgeStyles, RenderOption.NoEdgeColors,
   RenderOption.NoNodeStyles, RenderOption.NoNodeColors,
   RenderOption.NoArrows]

/-- A node with trait-default decorations (label falls back to the
node's identifier, style `None`, no color, no shape). -/
def undecorateNode (n : Node) : Node :=
  ⟨n.id, Text.LabelStr n.id, Style.None, Option.none, Option.none⟩

/-- An edge with trait-default decorations (empty label, style `None`,
no color, default arrows). -/
def undecorateEdge (e : Edge) : Edge :=
  ⟨e.source, e.target, Text.LabelStr "", Style.None, Option.none,
   Arrow.default, Arrow.default⟩

/-- A subgraph with trait-default decorations. -/
def undecorateSubgraph (s : Subgraph) : Subgraph :=
  ⟨s.id, Text.LabelStr "", Style.None, Option.none, Option.none, s.nodes⟩

/-- The same topology and identifiers with every decoration at its
trait default. -/
def undecorate (g : Graph) : Graph :=
  ⟨g.name, g.kind, g.nodes.map undecorateNode, g.edges.map undecorateEdge,
   g.subgraphs.map undecorateSubgraph⟩

/-- A fully decorated node carrying a shape. -/
def decoratedShapeNode : Node :=
  ⟨"N0", Text.LabelStr "x", Style.Dotted, Option.some (Text.LabelStr "red"),
   Option.some (Text.LabelStr "box")⟩

/-- A decorated graph (labels, styles, colors, arrows — no shapes). -/
def decoratedGraphNS : Graph :=
  ⟨"g", Kind.Digraph,
   [⟨"N0", Text.LabelStr "x", Style.Dotted, Option.some (Text.LabelStr "red"),
     Option.none⟩],
   [⟨"N0", "N0", Text.LabelStr "e", Style.Bold,
     Option.some (Text.LabelStr "blue"), Arrow.none, Arrow.none⟩],
   [⟨Option.some "cluster_0", Text.LabelStr "L", Style.Filled,
     Option.some (Text.LabelStr "green"), Option.none, ["N0"]⟩]⟩

/-! ## C1 — `Id::new` accepts exactly `[A-Za-z_][A-Za-z0-9_]*` -/

/-- Spec-side character class: ASCII letter or underscore. -/
def isIdHeadChar (c : Char) : Bool :=
  decide ('A' ≤ c ∧ c ≤ 'Z') || decide ('a' ≤ c ∧ c ≤ 'z') || c == '_'

/-- Spec-side character class: ASCII alphanumeric or underscore. -/
def isIdTailChar (c : Char) : Bool :=
  decide ('A' ≤ c ∧ c ≤ 'Z') || decide ('a' ≤ c ∧ c ≤ 'z') ||
    decide ('0' ≤ c ∧ c ≤ '9') || c == '_'

/-- Spec-side predicate, written from the claim's regular expression
`[A-Za-z_][A-Za-z0-9_]*`: non-empty, first character a letter or
underscore, every character alphanumeric or underscore. -/
def matchesIdRegex (s : String) : Bool :=
  match s.data with
  | [] => false
  | c :: _ => isIdHeadChar c && s.data.all isIdTailChar

/-! ## C10 — `escape_html` leaves no raw specials and no stray `&` -/

/-- The four sequential replacements of `escape_html`, on a char list. -/
def escHtmlList (l : List Char) : List Char :=
  replaceChar
    (replaceChar (replaceChar (replaceChar l '&' ampEntity) '"' quotEntity)
      '<' ltEntity)
    '>' gtEntity

/-- The per-character effect the four replacements amount to. -/
def escChar (c : Char) : List Char :=
  if c = '&' then ampEntity
  else if c = '"' then quotEntity
  else if c = '<' then ltEntity
  else if c = '>' then gtEntity
  else [c]

/-- The tails each escaped ampersand may be followed by. -/
def entityTails : List (List Char) :=
  [['a', 'm', 'p', ';'], ['q', 'u', 'o', 't', ';'], ['l', 't', ';'],
   ['g', 't', ';']]

/-- Every `&` in the list starts one of the entities `&amp;`,
`&quot;`, `&lt;`, `&gt;`. -/
def ampsEscaped : List Char → Bool
  | [] => true
  | c :: rest =>
    (if c = '&' then entityTails.any (fun t => t.isPrefixOf rest) else true) &&
      ampsEscaped rest

/-- No raw `<`, `>` or `"` occurs in the list. -/
def noSpecialChars (l : List Char) : Bool :=
  l.all (fun c => !(c == '<') && !(c == '>') && !(c == '"'))

theorem string_eq_of_data (a b : String) (h : a.data = b.data) : a = b := by
  cases a
  cases b
  exact congrArg String.mk h

/-! ## C8 — the empty graph -/

/-- C8: rendering a graph with zero nodes, zero edges and zero
subgraphs, named `g`, with the default (empty) option set and default
`Digraph` kind, produces exactly `"digraph g {\n}\n"`. -/
theorem render_empty_graph :
    render (Graph.mk "g" Kind.Digraph [] [] []) = "digraph g \x7b\n\x7d\n" := rfl

/-! ## C9 — `Shape::dot()` builds a Diamond -/

/-- C9: the `Shape::dot()` constructor returns a `Diamond` shape
(`Diamond` with `Filled` fill and `Both` side) rather than a `Dot`
shape, so `Shape::dot().to_dot_string()` renders `"diamond"`, not
`"dot"`. -/
theorem shape_dot_is_diamond :
    Shape.dot = Shape.Diamond Fill.Filled Side.Both
  ∧ Shape.dot.to_dot_string = "diamond"
  ∧ Shape.dot.to_dot_string ≠ "dot" := by
  refine ⟨rfl, rfl, ?_⟩
  decide

/-! ## C5 — default arrows are exactly the empty shape sequence -/

/-- C5: an `Arrow` is the default/unset sentinel exactly when its shape
sequence is empty (never by virtue of rendering to an empty string);
`Arrow::default()` is default and, with arrows not suppressed, a
default/default edge emits no arrow bracket, while `Arrow::none()`
(the one-`NoArrow` sequence) is non-default, triggers the bracket, and
renders the literal text `none`. -/
theorem arrow_default_iff_empty (a : Arrow) (options : List RenderOption)
    (h : RenderOption.NoArrows ∉ options) :
    (a.is_default = true ↔ a.arrows = [])
  ∧ Arrow.default.is_default = true
  ∧ Arrow.none.is_default = false
  ∧ Arrow.none.arrows = [Shape.NoArrow]
  ∧ Arrow.none.to_dot_string = "none"
  ∧ arrowFragment options Arrow.default Arrow.default = ""
  ∧ arrowFragment options Arrow.default Arrow.none = "[arrowhead=\"none\"]" := by
  refine ⟨?_, rfl, rfl, rfl, rfl, ?_, ?_⟩
  · simp [Arrow.is_default, List.isEmpty_iff]
  · simp [arrowFragment, Arrow.is_default, Arrow.default]
  · simp only [arrowFragment, Arrow.is_default, Arrow.default, Arrow.none]
    rw [if_pos ⟨h, Or.inr rfl⟩]
    decide

/-- Witness for C5 at `a := Arrow.none`, `options := []`. -/
theorem arrow_default_iff_empty_witness :
    (Arrow.none.is_default = true ↔ Arrow.none.arrows = [])
  ∧ Arrow.default.is_default = true
  ∧ Arrow.none.is_default = false
  ∧ Arrow.none.arrows = [Shape.NoArrow]
  ∧ Arrow.none.to_dot_string = "none"
  ∧ arrowFragment [] Arrow.default Arrow.default = ""
  ∧ arrowFragment [] Arrow.default Arrow.none = "[arrowhead=\"none\"]" :=
  arrow_default_iff_empty Arrow.none [] (by decide)

/-! ## C4 — the arrow bracket group on an edge line -/

/-- C4: when arrows are not suppressed, an edge line carries exactly
one arrow bracket group, whose text is determined by which of the two
arrows are non-default: both → `[arrowhead="<end>" dir="both"
arrowtail="<start>"]`; only end → `[arrowhead="<end>"]`; only start →
only the space/dir/arrowtail parts inside the bracket; neither → no
bracket group at all. -/
theorem edge_arrow_cases (kind : Kind) (options : List RenderOption) (e : Edge)
    (h : RenderOption.NoArrows ∉ options) :
    (renderEdge kind options e =
      "    " ++ e.source ++ " " ++ kind.edgeop ++ " " ++ e.target ++
        (if RenderOption.NoEdgeLabels ∈ options then ""
         else "[label=" ++ e.label.to_dot_string ++ "]") ++
        (if RenderOption.NoEdgeStyles ∉ options ∧ e.style ≠ Style.None then
          "[style=\"" ++ e.style.as_slice ++ "\"]"
         else "") ++
        (if RenderOption.NoEdgeColors ∈ options then ""
         else
          match e.color with
          | Option.some c => "[color=" ++ c.to_dot_string ++ "]"
          | Option.none => "") ++
        arrowFragment options e.start_arrow e.end_arrow ++ ";\n")
  ∧ (e.start_arrow.is_default = false → e.end_arrow.is_default = false →
      arrowFragment options e.start_arrow e.end_arrow =
        "[arrowhead=\"" ++ e.end_arrow.to_dot_string ++
          "\" dir=\"both\" arrowtail=\"" ++ e.start_arrow.to_dot_string ++ "\"]")
  ∧ (e.start_arrow.is_default = true → e.end_arrow.is_default = false →
      arrowFragment options e.start_arrow e.end_arrow =
        "[arrowhead=\"" ++ e.end_arrow.to_dot_string ++ "\"]")
  ∧ (e.start_arrow.is_default = false → e.end_arrow.is_default = true →
      arrowFragment options e.start_arrow e.end_arrow =
        "[" ++ " dir=\"both\" arrowtail=\"" ++ e.start_arrow.to_dot_string ++ "\"]")
  ∧ (e.start_arrow.is_default = true → e.end_arrow.is_default = true →
      arrowFragment options e.start_arrow e.end_arrow = "") := by
  refine ⟨rfl, ?_, ?_, ?_, ?_⟩ <;> intro h1 h2
  · unfold arrowFragment
    rw [if_pos ⟨h, Or.inl h1⟩, if_pos h2, if_pos h1]
    apply string_eq_of_data
    simp [String.data_append, List.append_assoc]
  · unfold arrowFragment
    rw [if_pos ⟨h, Or.inr h2⟩, if_pos h2, if_neg (by simp [h1])]
    apply string_eq_of_data
    simp [String.data_append, List.append_assoc]
  · unfold arrowFragment
    rw [if_pos ⟨h, Or.inl h1⟩, if_neg (by simp [h2]), if_pos h1]
    apply string_eq_of_data
    simp [String.data_append, List.append_assoc]
  · simp [arrowFragment, h1, h2]

/-- Witness for C4 at a concrete edge with both arrows non-default and
an empty option set. -/
theorem edge_arrow_cases_witness :
    arrowFragment [] Arrow.none Arrow.none =
      "[arrowhead=\"" ++ Arrow.none.to_dot_string ++
        "\" dir=\"both\" arrowtail=\"" ++ Arrow.none.to_dot_string ++ "\"]" :=
  (edge_arrow_cases Kind.Digraph []
    (Edge.mk "a" "b" (Text.LabelStr "") Style.None Option.none Arrow.none Arrow.none)
    (by decide)).2.1 (by decide) (by decide)

/-! ## C6 — `suffix_line` and `pre_escaped_content` -/

/-- C6: `suffix_line` returns an `EscStr` whose content is
`normalize(a) ++ "\n\n" ++ normalize(b)` (where normalize is
`pre_escaped_content`): `EscStr` content passes through unchanged, a
`LabelStr` without backslash passes through unchanged, a `LabelStr`
containing a backslash is escaped, `HtmlStr` content passes through;
hence rendering `a.suffix_line(b)` equals rendering the corresponding
`EscStr`. -/
theorem suffix_line_spec (a b : Text) :
    Text.suffix_line a b =
      Text.EscStr (a.pre_escaped_content ++ "\\n\\n" ++ b.pre_escaped_content)
  ∧ (Text.suffix_line a b).to_dot_string =
      (Text.EscStr (a.pre_escaped_content ++ "\\n\\n" ++
        b.pre_escaped_content)).to_dot_string
  ∧ (∀ s, (Text.EscStr s).pre_escaped_content = s)
  ∧ (∀ s, s.data.contains '\\' = false →
      (Text.LabelStr s).pre_escaped_content = s)
  ∧ (∀ s, s.data.contains '\\' = true →
      (Text.LabelStr s).pre_escaped_content = escapeDefaultStr s)
  ∧ (∀ s, (Text.HtmlStr s).pre_escaped_content = s) := by
  refine ⟨rfl, rfl, fun s => rfl, fun s hs => ?_, fun s hs => ?_, fun s => rfl⟩
  · simp only [Text.pre_escaped_content]
    rw [if_neg (by simpa using hs)]
  · simp only [Text.pre_escaped_content]
    rw [if_pos hs]

/-- Witness for C6 on concrete label texts with and without a
backslash. -/
theorem suffix_line_spec_witness :
    (Text.LabelStr "ab").pre_escaped_content = "ab"
  ∧ (Text.LabelStr "a\\b").pre_escaped_content = escapeDefaultStr "a\\b" :=
  ⟨(suffix_line_spec (Text.LabelStr "ab") (Text.LabelStr "c")).2.2.2.1 "ab"
      (by decide),
   (suffix_line_spec (Text.LabelStr "x") (Text.LabelStr "c")).2.2.2.2.1 "a\\b"
      (by decide)⟩

set_option maxRecDepth 10000 in
/-- C2, evaluated at the failing input: a subgraph with
`subgraph_color = Some("red")` and `subgraph_shape = Some("box")`,
rendered with no suppression options, yields output with no `color`
attribute at all (the renderer never consults `subgraph_color`) and a
`shape="..box";` line missing its closing quote; moreover the rendered
block is entirely independent of the subgraph's color. -/
theorem subgraph_color_never_rendered :
    render_opts (Graph.mk "g" Kind.Digraph [] [] [subColorShape]) [] =
      "digraph g \x7b\nsubgraph cluster_0 \x7b\nlabel=\"\";\nshape=\"\"box\";\n\nN0;\n\n\x7d\n\n\x7d\n"
  ∧ containsSub ['c', 'o', 'l', 'o', 'r']
      (render_opts (Graph.mk "g" Kind.Digraph [] [] [subColorShape]) []).data = false
  ∧ (∀ options (s : Subgraph) (c : Option Text),
      renderSubgraph options { s with color := c } = renderSubgraph options s) :=
  ⟨by decide, by decide, fun options s c => rfl⟩

set_option maxRecDepth 10000 in
/-- C3 counterexample: with one subgraph and the `DarkTheme` option,
the three global attribute-block lines appear only after the whole
subgraph block, not immediately after the opening-brace header line. -/
theorem global_attrs_not_after_header :
    render_opts (Graph.mk "g" Kind.Digraph [] [] [subPlain])
        [RenderOption.DarkTheme] =
      "digraph g \x7b\nsubgraph \x7b\nlabel=\"\";\n\n\n\x7d\n\n    graph[bgcolor=\"black\" fontcolor=\"white\"];\n    node[color=\"white\" fontcolor=\"white\"];\n    edge[color=\"white\" fontcolor=\"white\"];\n\x7d\n"
  ∧ (("digraph g \x7b\n    graph[" : String).data.isPrefixOf
      (render_opts (Graph.mk "g" Kind.Digraph [] [] [subPlain])
        [RenderOption.DarkTheme]).data) = false :=
  ⟨by decide, by decide⟩

/-- Key fact for C3: the attribute block is empty exactly when the
option set has no `Fontname` and no `DarkTheme`. -/
theorem globalAttrs_empty_iff (options : List RenderOption) :
    globalAttrs options = "" ↔
      (hasFontname options = false ∧ RenderOption.DarkTheme ∉ options) := by
  cases hf : findFontname options with
  | none =>
    by_cases hd : RenderOption.DarkTheme ∈ options
    · constructor
      · intro he
        have h2 := congrArg String.data he
        simp [globalAttrs, hf, hd, String.data_append] at h2
      · rintro ⟨-, h2⟩
        exact absurd hd h2
    · simp [globalAttrs, hf, hd, hasFontname]
  | some f =>
    by_cases hd : RenderOption.DarkTheme ∈ options <;>
    · constructor
      · intro he
        have h2 := congrArg String.data he
        simp [globalAttrs, hf, hd, String.data_append] at h2
      · rintro ⟨h1, -⟩
        rw [hasFontname, hf] at h1
        simp at h1

/-- C3 amended: the three global attribute-block lines are emitted
exactly when the option set holds a `Fontname` or `DarkTheme` option,
and they appear after the whole subgraph section and immediately
before the node lines (hence immediately after the header only when
the graph has no subgraphs); with neither option present no attribute
lines are emitted. -/
theorem global_attrs_placement (g : Graph) (options : List RenderOption) :
    (globalAttrs options = "" ↔
      (hasFontname options = false ∧ RenderOption.DarkTheme ∉ options))
  ∧ render_opts g options =
      g.kind.keyword ++ " " ++ g.name ++ " \x7b\n" ++
        renderSubgraphs options g.subgraphs ++
        (globalAttrs options ++ strConcat (g.nodes.map (renderNode options))) ++
        strConcat (g.edges.map (renderEdge g.kind options)) ++
        "\x7d\n"
  ∧ ((hasFontname options = true ∨ RenderOption.DarkTheme ∈ options) →
      ∃ ga ca, globalAttrs options =
        "    graph[" ++ ga ++ "];\n" ++
        "    node[" ++ ca ++ "];\n" ++
        "    edge[" ++ ca ++ "];\n") := by
  refine ⟨globalAttrs_empty_iff options, rfl, fun hor => ?_⟩
  cases hf : findFontname options with
  | none =>
    by_cases hd : RenderOption.DarkTheme ∈ options
    · refine ⟨joinSpace ["bgcolor=\"black\"", "fontcolor=\"white\""],
        joinSpace ["color=\"white\"", "fontcolor=\"white\""], ?_⟩
      simp only [globalAttrs, hf, hd]
      apply string_eq_of_data
      simp [String.data_append, List.append_assoc]
    · cases hor with
      | inl hl => rw [hasFontname, hf] at hl; cases hl
      | inr hr => exact absurd hr hd
  | some f =>
    by_cases hd : RenderOption.DarkTheme ∈ options
    · refine ⟨joinSpace (["fontname=\"" ++ f ++ "\""] ++
          ["bgcolor=\"black\"", "fontcolor=\"white\""]),
        joinSpace (["fontname=\"" ++ f ++ "\""] ++
          ["color=\"white\"", "fontcolor=\"white\""]), ?_⟩
      simp only [globalAttrs, hf, hd]
      apply string_eq_of_data
      simp [String.data_append, List.append_assoc]
    · refine ⟨joinSpace [("fontname=\"" ++ f ++ "\"" : String)],
        joinSpace [("fontname=\"" ++ f ++ "\"" : String)], ?_⟩
      simp only [globalAttrs, hf, hd]
      apply string_eq_of_data
      simp [String.data_append, List.append_assoc]

/-- Witness for C3 with the `DarkTheme` option on a concrete graph. -/
theorem global_attrs_placement_witness :
    ∃ ga ca, globalAttrs [RenderOption.DarkTheme] =
      "    graph[" ++ ga ++ "];\n" ++
      "    node[" ++ ca ++ "];\n" ++
      "    edge[" ++ ca ++ "];\n" :=
  (global_attrs_placement (Graph.mk "g" Kind.Digraph [] [] [])
      [RenderOption.DarkTheme]).2.2 (Or.inr (by decide))

set_option maxRecDepth 10000 in
/-- C7 counterexample: a decorated node carrying a shape still emits
its `[shape=...]` fragment under the full suppression option set (no
option suppresses shapes), so the output differs from the undecorated
graph's. -/
theorem suppress_all_shape_counterexample :
    render_opts (Graph.mk "g" Kind.Digraph [decoratedShapeNode] [] [])
        allSuppress ≠
      render_opts (undecorate (Graph.mk "g" Kind.Digraph [decoratedShapeNode] [] []))
        allSuppress := by
  decide

theorem renderNode_suppressed (n : Node) (h : n.shape = Option.none) :
    renderNode allSuppress n = "    " ++ n.id ++ ";\n" := by
  simp [renderNode, allSuppress, h]

theorem renderEdge_suppressed (kind : Kind) (e : Edge) :
    renderEdge kind allSuppress e =
      "    " ++ e.source ++ " " ++ kind.edgeop ++ " " ++ e.target ++ ";\n" := by
  simp [renderEdge, arrowFragment, allSuppress]

theorem renderSubgraph_suppressed (s : Subgraph) (h : s.shape = Option.none) :
    renderSubgraph allSuppress s =
      "subgraph " ++
        (match s.id with
         | Option.some x => x ++ " "
         | Option.none => "") ++ "\x7b\n" ++ "\n" ++
        strConcat (s.nodes.map (fun nid => nid ++ ";\n")) ++ "\n\x7d\n\n" := by
  simp [renderSubgraph, allSuppress, h]

theorem strConcat_map_undecorateNode :
    ∀ ns : List Node, (∀ n ∈ ns, n.shape = Option.none) →
      strConcat ((ns.map undecorateNode).map (renderNode allSuppress)) =
        strConcat (ns.map (renderNode allSuppress))
  | [], _ => rfl
  | n :: t, h => by
    simp only [List.map_cons, strConcat]
    rw [renderNode_suppressed n (h n (by simp)),
      renderNode_suppressed (undecorateNode n) rfl,
      strConcat_map_undecorateNode t (fun x hx => h x (by simp [hx]))]
    rfl

theorem strConcat_map_undecorateEdge (kind : Kind) :
    ∀ es : List Edge,
      strConcat ((es.map undecorateEdge).map (renderEdge kind allSuppress)) =
        strConcat (es.map (renderEdge kind allSuppress))
  | [] => rfl
  | e :: t => by
    simp only [List.map_cons, strConcat]
    rw [renderEdge_suppressed kind e, renderEdge_suppressed kind (undecorateEdge e),
      strConcat_map_undecorateEdge kind t]
    rfl

theorem strConcat_map_undecorateSubgraph :
    ∀ ss : List Subgraph, (∀ s ∈ ss, s.shape = Option.none) →
      strConcat ((ss.map undecorateSubgraph).map (renderSubgraph allSuppress)) =
        strConcat (ss.map (renderSubgraph allSuppress))
  | [], _ => rfl
  | s :: t, h => by
    simp only [List.map_cons, strConcat]
    rw [renderSubgraph_suppressed s (h s (by simp)),
      renderSubgraph_suppressed (undecorateSubgraph s) rfl,
      strConcat_map_undecorateSubgraph t (fun x hx => h x (by simp [hx]))]
    rfl

/-- C7 amended: when no node and no subgraph carries a shape (shape
fragments are emitted unconditionally — no option suppresses them),
rendering with all suppression options enabled is byte-identical to
rendering the undecorated graph with the same topology and
identifiers. -/
theorem suppress_all_eq_undecorated (g : Graph)
    (hn : ∀ n ∈ g.nodes, n.shape = Option.none)
    (hs : ∀ s ∈ g.subgraphs, s.shape = Option.none) :
    render_opts g allSuppress = render_opts (undecorate g) allSuppress := by
  obtain ⟨name, kind, nodes, edges, subs⟩ := g
  simp only [render_opts, undecorate, renderNodes, renderSubgraphs] at hn hs ⊢
  rw [strConcat_map_undecorateNode nodes hn,
    strConcat_map_undecorateEdge kind edges,
    strConcat_map_undecorateSubgraph subs hs]

/-- Witness for C7 on a concrete decorated, shape-free graph. -/
theorem suppress_all_eq_undecorated_witness :
    render_opts decoratedGraphNS allSuppress =
      render_opts (undecorate decoratedGraphNS) allSuppress :=
  suppress_all_eq_undecorated decoratedGraphNS (by decide) (by decide)

theorem head_class (c : Char) :
    (c.isAlpha || decide (c = '_')) = isIdHeadChar c := by
  by_cases h : c = '_'
  · simp [isIdHeadChar, h]
  · simp [Char.isAlpha, Char.isUpper, Char.isLower, isIdHeadChar, Char.le_def,
      Bool.or_assoc, h, beq_eq_false_iff_ne.mpr h]

theorem tail_class (c : Char) :
    (c.isAlphanum || decide (c = '_')) = isIdTailChar c := by
  by_cases h : c = '_'
  · simp [isIdTailChar, h]
  · simp [Char.isAlphanum, Char.isAlpha, Char.isDigit, Char.isUpper, Char.isLower,
      isIdTailChar, Char.le_def, Bool.or_assoc, h, beq_eq_false_iff_ne.mpr h]

/-- C1: `Id::new` succeeds exactly on strings matching
`[A-Za-z_][A-Za-z0-9_]*`; on success the constructed `Id` stores and
renders exactly the input, and on failure the result is the
`InvalidId` error (so no `Id` is produced). -/
theorem id_new_spec (s : String) :
    ((Id.new s).isOk = matchesIdRegex s)
  ∧ (∀ i, Id.new s = Except.ok i → i.name = s ∧ Id.render i = s)
  ∧ (matchesIdRegex s = false → Id.new s = Except.error Error.InvalidId) := by
  obtain ⟨l⟩ := s
  cases l with
  | nil =>
    refine ⟨rfl, fun i h => ?_, fun _ => rfl⟩
    simp [Id.new] at h
  | cons c t =>
    have hnew : Id.new ⟨c :: t⟩ =
        (if isIdHeadChar c = true then
          (if (c :: t).all isIdTailChar = true then Except.ok ⟨⟨c :: t⟩⟩
           else Except.error Error.InvalidId)
         else Except.error Error.InvalidId) := by
      simp only [Id.new, List.head?, head_class, tail_class]
    have hreg : matchesIdRegex ⟨c :: t⟩ =
        (isIdHeadChar c && (c :: t).all isIdTailChar) := rfl
    refine ⟨?_, ?_, ?_⟩
    · rw [hnew, hreg]
      cases hA : isIdHeadChar c <;> cases hB : (c :: t).all isIdTailChar <;>
        simp [Except.isOk, Except.toBool]
    · intro i hi
      rw [hnew] at hi
      by_cases hA : isIdHeadChar c = true
      · rw [if_pos hA] at hi
        by_cases hB : (c :: t).all isIdTailChar = true
        · rw [if_pos hB] at hi
          cases hi
          exact ⟨rfl, rfl⟩
        · rw [if_neg hB] at hi
          cases hi
      · rw [if_neg hA] at hi
        cases hi
    · intro hm
      rw [hreg] at hm
      rw [hnew]
      by_cases hA : isIdHeadChar c = true
      · have hB : (c :: t).all isIdTailChar = false := by
          rw [hA] at hm
          simpa using hm
        rw [if_pos hA, if_neg (by simp [hB])]
      · rw [if_neg hA]

/-- Witness for C1: a valid identifier accepted and rendered
unchanged, a digit-initial string rejected with `InvalidId`. -/
theorem id_new_spec_witness :
    Id.render ⟨"a_1"⟩ = "a_1"
  ∧ Id.new "0x" = Except.error Error.InvalidId :=
  ⟨((id_new_spec "a_1").2.1 ⟨"a_1"⟩ rfl).2,
   (id_new_spec "0x").2.2 (by decide)⟩

theorem replaceChar_append (xs ys : List Char) (c : Char) (r : List Char) :
    replaceChar (xs ++ ys) c r = replaceChar xs c r ++ replaceChar ys c r := by
  induction xs with
  | nil => rfl
  | cons x t ih => simp [replaceChar, ih, List.append_assoc]

/-- The four sequential replacements act independently on each input
character: later replacements never touch the entity text produced by
earlier ones (ampersands are replaced first). -/
theorem escHtmlList_cons (c : Char) (l : List Char) :
    escHtmlList (c :: l) = escChar c ++ escHtmlList l := by
  have h0 : replaceChar (c :: l) '&' ampEntity =
      (if c = '&' then ampEntity else [c]) ++ replaceChar l '&' ampEntity := rfl
  rw [escHtmlList, h0, replaceChar_append, replaceChar_append, replaceChar_append]
  rw [escHtmlList]
  congr 1
  by_cases h1 : c = '&'
  · subst h1
    decide
  by_cases h2 : c = '"'
  · subst h2
    decide
  by_cases h3 : c = '<'
  · subst h3
    decide
  by_cases h4 : c = '>'
  · subst h4
    decide
  simp [escChar, replaceChar, h1, h2, h3, h4]

theorem isPrefixOf_append_self : ∀ (l t : List Char), l.isPrefixOf (l ++ t) = true
  | [], _ => by simp [List.isPrefixOf]
  | c :: l, t => by simp [List.isPrefixOf, isPrefixOf_append_self l t]

theorem escHtml_props : ∀ l : List Char,
    noSpecialChars (escHtmlList l) = true ∧ ampsEscaped (escHtmlList l) = true
  | [] => ⟨rfl, rfl⟩
  | c :: l => by
    obtain ⟨ih1, ih2⟩ := escHtml_props l
    rw [escHtmlList_cons]
    by_cases h1 : c = '&'
    · subst h1
      constructor
      · simp [noSpecialChars, List.all_append, escChar, ampEntity] at ih1 ⊢
        exact ih1
      · simp [escChar, ampEntity, ampsEscaped, entityTails, isPrefixOf_append_self,
          ih2]
    by_cases h2 : c = '"'
    · subst h2
      constructor
      · simp [noSpecialChars, List.all_append, escChar, quotEntity] at ih1 ⊢
        exact ih1
      · simp [escChar, quotEntity, ampsEscaped, entityTails, isPrefixOf_append_self,
          ih2]
    by_cases h3 : c = '<'
    · subst h3
      constructor
      · simp [noSpecialChars, List.all_append, escChar, ltEntity] at ih1 ⊢
        exact ih1
      · simp [escChar, ltEntity, ampsEscaped, entityTails, isPrefixOf_append_self,
          ih2]
    by_cases h4 : c = '>'
    · subst h4
      constructor
      · simp [noSpecialChars, List.all_append, escChar, gtEntity] at ih1 ⊢
        exact ih1
      · simp [escChar, gtEntity, ampsEscaped, entityTails, isPrefixOf_append_self,
          ih2]
    · constructor
      · simp [noSpecialChars, List.all_append, escChar, h1, h2, h3, h4] at ih1 ⊢
        exact ih1
      · simp [escChar, h1, h2, h3, h4, ampsEscaped, ih2]

/-- C10: for every input string, `escape_html` returns a string with
no `<`, `>` or `"`, in which every `&` is the first character of one
of the entities `&amp;`, `&quot;`, `&lt;` or `&gt;` (ampersands are
escaped before the other replacements, so entities introduced by the
later replacements are never double-escaped). -/
theorem escape_html_spec (s : String) :
    noSpecialChars (escape_html s).data = true
  ∧ ampsEscaped (escape_html s).data = true := by
  have h : (escape_html s).data = escHtmlList s.data := rfl
  rw [h]
  exact escHtml_props s.data

end Dot2
